import Mathlib

/-!
Verification of the inventory persistence core of `app.py`.

The program stores inventory rows in one SQLite table
`inventory(id INTEGER PRIMARY KEY AUTOINCREMENT, name TEXT UNIQUE,
quantity INTEGER, price REAL)` and exposes `init_db`, `view_inventory`,
`add_item`, `update_item`, `delete_item` and `get_low_stock_items`.
We embed the table as a list of rows together with the AUTOINCREMENT
sequence counter, and each operation as a pure function on that state.
Quantities are embedded as `Int` (the store applies no range check) and
prices as `ℚ` (an exact stand-in for the numeric REAL column; every
claim below concerns which values are stored and summed, not rounding).
-/

namespace Inventory

/-- One row of the `inventory` table. -/
structure Item where
  id : Nat
  name : String
  quantity : Int
  price : ℚ
  deriving Repr, DecidableEq

/-- The table state: its rows in rowid (insertion) order, and the
AUTOINCREMENT sequence value `nextId` that the next successful insert
will use.  SQLite with AUTOINCREMENT never reuses an id, even after a
delete, which is exactly what a monotone `nextId` models. -/
structure DB where
  rows : List Item
  nextId : Nat
  deriving Repr, DecidableEq

/-- `init_db`: `CREATE TABLE IF NOT EXISTS inventory (...)`.
Starting from no table (`none`) it creates the empty table with the
sequence at 1; if the table already exists it leaves it untouched. -/
def init_db : Option DB → DB
  | none => { rows := [], nextId := 1 }
  | some db => db

/-- `view_inventory`: `SELECT * FROM inventory` — every row, in
store-default (rowid) order. -/
def view_inventory (db : DB) : List Item :=
  db.rows

/-- `add_item name quantity price`:
`INSERT INTO inventory (name, quantity, price) VALUES (?, ?, ?)`.
The UNIQUE constraint on `name` makes the insert raise
`sqlite3.IntegrityError` when a row with that name exists; the code
catches it and returns `False` without committing.  On success the new
row gets id `nextId` and the function returns `True`. -/
def add_item (db : DB) (name : String) (quantity : Int) (price : ℚ) :
    Bool × DB :=
  if db.rows.any (fun r => r.name = name) then
    (false, db)
  else
    (true,
      { rows := db.rows ++ [{ id := db.nextId, name := name,
                              quantity := quantity, price := price }],
        nextId := db.nextId + 1 })

/-- `update_item item_id quantity price`:
`UPDATE inventory SET quantity=?, price=? WHERE id=?` — rewrites
quantity and price on every row whose id matches (zero or one row),
leaving id and name alone. -/
def update_item (db : DB) (item_id : Nat) (quantity : Int) (price : ℚ) :
    DB :=
  { db with
    rows := db.rows.map (fun r =>
      if r.id = item_id then
        { id := r.id, name := r.name, quantity := quantity, price := price }
      else r) }

/-- `delete_item item_id`: `DELETE FROM inventory WHERE id=?`. -/
def delete_item (db : DB) (item_id : Nat) : DB :=
  { db with rows := db.rows.filter (fun r => r.id ≠ item_id) }

/-- `get_low_stock_items threshold` (default 5):
`SELECT * FROM inventory WHERE quantity < {threshold}` — the threshold
is interpolated as a numeric literal, so the rows kept are exactly
those with `quantity < threshold` under numeric comparison. -/
def get_low_stock_items (db : DB) (threshold : ℚ) : List Item :=
  db.rows.filter (fun r => (r.quantity : ℚ) < threshold)

/-- Module-level metric `total_items`:
`df["quantity"].sum() if not df.empty else 0`. -/
def total_items (db : DB) : Int :=
  if view_inventory db = [] then 0
  else ((view_inventory db).map (fun r => r.quantity)).sum

/-- Module-level metric `total_value`:
`(df["quantity"] * df["price"]).sum() if not df.empty else 0`. -/
def total_value (db : DB) : ℚ :=
  if view_inventory db = [] then 0
  else ((view_inventory db).map (fun r => (r.quantity : ℚ) * r.price)).sum

/-- Module-level metric `low_stock_count`: `len(get_low_stock_items())`
with the default threshold 5. -/
def low_stock_count (db : DB) : Nat :=
  (get_low_stock_items db 5).length

/-- Header check of the import block:
`all(col in excel_df.columns for col in ["Name", "Quantity", "Price"])`. -/
def hasImportColumns (columns : List String) : Bool :=
  ["Name", "Quantity", "Price"].all (fun c => columns.contains c)

/-- The import loop: for each data row `(name, quantity, price)` in
order, call `add_item` and count the calls that returned `True`. -/
def importRows (db : DB) : List (String × Int × ℚ) → Nat × DB
  | [] => (0, db)
  | r :: rs =>
    let step := add_item db r.1 r.2.1 r.2.2
    let rest := importRows step.2 rs
    ((if step.1 then 1 else 0) + rest.1, rest.2)

/-- The list of per-row results of `add_item` along the import loop. -/
def importResults (db : DB) : List (String × Int × ℚ) → List Bool
  | [] => []
  | r :: rs =>
    let step := add_item db r.1 r.2.1 r.2.2
    step.1 :: importResults step.2 rs

/-- States reachable through the persistence API: start from a fresh
`init_db` and apply any sequence of the four mutating operations (and
possibly re-run `init_db`). -/
inductive Reachable : DB → Prop
  | init : Reachable (init_db none)
  | reinit (db : DB) : Reachable db → Reachable (init_db (some db))
  | add (db : DB) (n : String) (q : Int) (p : ℚ) :
      Reachable db → Reachable (add_item db n q p).2
  | upd (db : DB) (i : Nat) (q : Int) (p : ℚ) :
      Reachable db → Reachable (update_item db i q p)
  | del (db : DB) (i : Nat) :
      Reachable db → Reachable (delete_item db i)

/-- States reachable when every insert and update supplies a
non-negative quantity and price, as the presentation layer's
`min_value=0` inputs guarantee. -/
inductive ReachableNN : DB → Prop
  | init : ReachableNN (init_db none)
  | reinit (db : DB) : ReachableNN db → ReachableNN (init_db (some db))
  | add (db : DB) (n : String) (q : Int) (p : ℚ) :
      0 ≤ q → 0 ≤ p → ReachableNN db → ReachableNN (add_item db n q p).2
  | upd (db : DB) (i : Nat) (q : Int) (p : ℚ) :
      0 ≤ q → 0 ≤ p → ReachableNN db → ReachableNN (update_item db i q p)
  | del (db : DB) (i : Nat) :
      ReachableNN db → ReachableNN (delete_item db i)

/-- Concrete one-row table used in witnesses: a single Widget row. -/
def widgetDB : DB :=
  { rows := [{ id := 1, name := "Widget", quantity := 3, price := 2 }],
    nextId := 2 }

/-- Concrete item with quantity 4 (one below the default threshold). -/
def itemA4 : Item :=
  { id := 1, name := "a", quantity := 4, price := 1 }

/-- Concrete item with quantity 5 (exactly the default threshold). -/
def itemB5 : Item :=
  { id := 2, name := "b", quantity := 5, price := 1 }

/-- Concrete two-row table used in witnesses. -/
def abDB : DB :=
  { rows := [itemA4, itemB5], nextId := 3 }

end Inventory

namespace Inventory

lemma update_item_map_name (db : DB) (i : Nat) (q : Int) (p : ℚ) :
    (update_item db i q p).rows.map (fun r => r.name) =
      db.rows.map (fun r => r.name) := by
  simp only [update_item, List.map_map]
  apply List.map_congr_left
  intro r _
  by_cases h : r.id = i <;> simp [h]

lemma update_item_map_id (db : DB) (i : Nat) (q : Int) (p : ℚ) :
    (update_item db i q p).rows.map (fun r => r.id) =
      db.rows.map (fun r => r.id) := by
  simp only [update_item, List.map_map]
  apply List.map_congr_left
  intro r _
  by_cases h : r.id = i <;> simp [h]

lemma reachable_names_nodup (db : DB) (h : Reachable db) :
    (db.rows.map (fun r => r.name)).Nodup := by
  induction h with
  | init => simp [init_db]
  | reinit db h ih => simpa [init_db] using ih
  | add db n q p h ih =>
    by_cases hdup : db.rows.any (fun r => r.name = n)
    · simpa [add_item, hdup] using ih
    · have hnot : n ∉ db.rows.map (fun r => r.name) := by
        intro hmem
        rcases List.mem_map.mp hmem with ⟨r, hr, hrn⟩
        exact hdup (List.any_eq_true.mpr ⟨r, hr, by simp [hrn]⟩)
      simp only [add_item, hdup, if_neg, Bool.false_eq_true, not_false_iff]
      simp only [List.map_append, List.map_cons, List.map_nil]
      exact List.Nodup.append ih (by simp) (by
        intro a ha hb
        simp at hb
        subst hb
        exact hnot ha)
  | upd db i q p h ih => simpa [update_item_map_name] using ih
  | del db i h ih =>
    exact List.Nodup.sublist (List.Sublist.map _ (List.filter_sublist _)) ih

lemma reachable_id_lt (db : DB) (h : Reachable db) :
    ∀ r ∈ db.rows, r.id < db.nextId := by
  induction h with
  | init => simp [init_db]
  | reinit db h ih => simpa [init_db] using ih
  | add db n q p h ih =>
    intro r hr
    by_cases hdup : db.rows.any (fun x => x.name = n)
    · simp only [add_item, hdup, if_pos] at hr ⊢
      exact ih r hr
    · simp only [add_item, hdup, Bool.false_eq_true, if_neg,
        not_false_iff, List.mem_append, List.mem_singleton] at hr ⊢
      rcases hr with hr | hr
      · exact Nat.lt_succ_of_lt (ih r hr)
      · subst hr
        exact Nat.lt_succ_self _
  | upd db i q p h ih =>
    intro r hr
    simp only [update_item] at hr
    rcases List.mem_map.mp hr with ⟨s, hs, hsr⟩
    have : r.id = s.id := by
      subst hsr
      by_cases hid : s.id = i <;> simp [hid]
    rw [this]
    exact ih s hs
  | del db i h ih =>
    intro r hr
    exact ih r (List.mem_of_mem_filter hr)

lemma countP_name_one (n : String) :
    ∀ l : List Item, (l.map (fun r => r.name)).Nodup →
      ∀ r ∈ l, r.name = n → l.countP (fun x => x.name = n) = 1 := by
  intro l
  induction l with
  | nil => intro _ r hr; exact absurd hr (List.not_mem_nil r)
  | cons a l ih =>
    intro hnd r hr hrn
    simp only [List.map_cons, List.nodup_cons] at hnd
    rcases List.mem_cons.mp hr with hra | hrl
    · subst hra
      have hzero : l.countP (fun x => decide (x.name = n)) = 0 := by
        rw [List.countP_eq_zero]
        intro x hx
        simp only [decide_eq_true_eq]
        intro hxn
        exact hnd.1 (List.mem_map.mpr ⟨x, hx, by rw [hxn, hrn]⟩)
      simp [List.countP_cons, hrn, hzero]
    · have hane : ¬ a.name = n := by
        intro han
        exact hnd.1 (List.mem_map.mpr ⟨r, hrl, by rw [hrn, han]⟩)
      have := ih hnd.2 r hrl hrn
      simp [List.countP_cons, hane, this]

end Inventory

namespace Inventory

/-- Claim C1: inserting a name that is already present in the table
fails with the indicator False, mutates nothing, and leaves exactly one
row with that name. -/
theorem add_item_duplicate_rejected (db : DB) (n : String) (q : Int)
    (p : ℚ) (hreach : Reachable db) (hpresent : ∃ r ∈ db.rows, r.name = n) :
    (add_item db n q p).1 = false ∧ (add_item db n q p).2 = db ∧
      (add_item db n q p).2.rows.countP (fun r => r.name = n) = 1 := by
  obtain ⟨r0, hr0, hr0n⟩ := hpresent
  have hany : db.rows.any (fun r => r.name = n) = true :=
    List.any_eq_true.mpr ⟨r0, hr0, by simp [hr0n]⟩
  have hone : db.rows.countP (fun r => r.name = n) = 1 :=
    countP_name_one n db.rows (reachable_names_nodup db hreach) r0 hr0 hr0n
  refine ⟨?_, ?_, ?_⟩ <;> simp [add_item, hany, hone]

/-- Witness for C1 on a one-row table holding the name Widget. -/
theorem add_item_duplicate_rejected_witness :
    (add_item widgetDB "Widget" 7 1).1 = false ∧
      (add_item widgetDB "Widget" 7 1).2 = widgetDB ∧
      (add_item widgetDB "Widget" 7 1).2.rows.countP
        (fun r => r.name = "Widget") = 1 :=
  add_item_duplicate_rejected widgetDB "Widget" 7 1
    (Reachable.add (init_db none) "Widget" 3 2 Reachable.init)
    ⟨{ id := 1, name := "Widget", quantity := 3, price := 2 },
      by decide, rfl⟩

/-- Claim C2: the low-stock query is the full listing filtered by a
strict comparison with the threshold: a row is in the result exactly
when it is in the listing with quantity strictly below the threshold,
so quantity equal to the threshold is excluded and quantity equal to
threshold minus one is included. -/
theorem low_stock_filter_spec (db : DB) (t : ℚ) :
    get_low_stock_items db t =
        (view_inventory db).filter (fun r => (r.quantity : ℚ) < t) ∧
      (∀ r, r ∈ get_low_stock_items db t ↔
        r ∈ view_inventory db ∧ (r.quantity : ℚ) < t) ∧
      (∀ r ∈ view_inventory db, (r.quantity : ℚ) = t →
        r ∉ get_low_stock_items db t) ∧
      (∀ r ∈ view_inventory db, (r.quantity : ℚ) = t - 1 →
        r ∈ get_low_stock_items db t) := by
  refine ⟨rfl, ?_, ?_, ?_⟩
  · intro r
    simp [get_low_stock_items, view_inventory, List.mem_filter]
  · intro r hr heq hmem
    have := (List.mem_filter.mp hmem).2
    simp only [decide_eq_true_eq] at this
    rw [heq] at this
    exact lt_irrefl t this
  · intro r hr heq
    refine List.mem_filter.mpr ⟨hr, ?_⟩
    simp only [decide_eq_true_eq, heq]
    linarith

/-- Witness for C2 at threshold 5 on a table with quantities 4 and 5. -/
theorem low_stock_filter_spec_witness :
    itemA4 ∈ get_low_stock_items abDB 5 ∧
      itemB5 ∉ get_low_stock_items abDB 5 :=
  ⟨(low_stock_filter_spec abDB 5).2.2.2 itemA4 (by decide)
      (by norm_num [itemA4]),
    (low_stock_filter_spec abDB 5).2.2.1 itemB5 (by decide)
      (by norm_num [itemB5])⟩

end Inventory

namespace Inventory

/-- Claim C4: update with a matching id rewrites that row to carry the
new quantity and price while keeping its id and name, leaves every
non-matching row untouched, and with no matching row it is a silent
no-op leaving the whole state unchanged. -/
theorem update_item_frame (db : DB) (i : Nat) (q : Int) (p : ℚ) :
    (update_item db i q p).rows = db.rows.map (fun r =>
        if r.id = i then
          { id := r.id, name := r.name, quantity := q, price := p }
        else r) ∧
      (update_item db i q p).nextId = db.nextId ∧
      (∀ r ∈ db.rows, r.id ≠ i → r ∈ (update_item db i q p).rows) ∧
      ((∀ r ∈ db.rows, r.id ≠ i) → update_item db i q p = db) := by
  refine ⟨rfl, rfl, ?_, ?_⟩
  · intro r hr hne
    have hfix : (if r.id = i then
        { id := r.id, name := r.name, quantity := q, price := p }
      else r) = r := if_neg hne
    simpa only [update_item, hfix] using
      List.mem_map_of_mem (fun r =>
        if r.id = i then
          { id := r.id, name := r.name, quantity := q, price := p }
        else r) hr
  · intro hall
    have hmap : db.rows.map (fun r =>
        if r.id = i then
          { id := r.id, name := r.name, quantity := q, price := p }
        else r) = db.rows := by
      conv_rhs => rw [← List.map_id db.rows]
      exact List.map_congr_left (fun r hr => by simp [if_neg (hall r hr)])
    simp [update_item, hmap]

/-- Witness for C4: updating a missing id is a no-op on a concrete
two-row table. -/
theorem update_item_frame_witness : update_item abDB 99 7 3 = abDB :=
  (update_item_frame abDB 99 7 3).2.2.2 (by decide)

/-- Claim C5: delete removes exactly the rows with the given id and
keeps every other row; after a delete neither the listing nor any
low-stock query contains that id, and deleting a missing id changes
nothing. -/
theorem delete_item_removes (db : DB) (i : Nat) :
    (delete_item db i).rows = db.rows.filter (fun r => r.id ≠ i) ∧
      (∀ r ∈ db.rows, r.id ≠ i → r ∈ (delete_item db i).rows) ∧
      (∀ r ∈ view_inventory (delete_item db i), r.id ≠ i) ∧
      (∀ t : ℚ, ∀ r ∈ get_low_stock_items (delete_item db i) t,
        r.id ≠ i) ∧
      ((∀ r ∈ db.rows, r.id ≠ i) → delete_item db i = db) := by
  refine ⟨rfl, ?_, ?_, ?_, ?_⟩
  · intro r hr hne
    exact List.mem_filter.mpr ⟨hr, by simpa using hne⟩
  · intro r hr
    have := (List.mem_filter.mp hr).2
    simpa using this
  · intro t r hr
    simp only [get_low_stock_items] at hr
    have hr2 : r ∈ (delete_item db i).rows := (List.mem_filter.mp hr).1
    have := (List.mem_filter.mp hr2).2
    simpa using this
  · intro hall
    cases db with
    | mk rows nid =>
      simp only [delete_item, DB.mk.injEq, and_true]
      exact List.filter_eq_self.mpr (fun r hr => by simpa using hall r hr)

/-- Witness for C5: deleting a missing id is a no-op on a concrete
two-row table. -/
theorem delete_item_removes_witness : delete_item abDB 99 = abDB :=
  (delete_item_removes abDB 99).2.2.2.2 (by decide)

/-- Claim C6: the three dashboard metrics are the sum of quantities,
the sum of quantity times price, and the count of rows below the
default threshold 5, over the full listing; on an empty listing all
three are 0. -/
theorem metrics_from_listing (db : DB) :
    total_items db =
        ((view_inventory db).map (fun r => r.quantity)).sum ∧
      total_value db =
        ((view_inventory db).map (fun r => (r.quantity : ℚ) * r.price)).sum ∧
      low_stock_count db =
        ((view_inventory db).filter (fun r => (r.quantity : ℚ) < 5)).length ∧
      (view_inventory db = [] →
        total_items db = 0 ∧ total_value db = 0 ∧ low_stock_count db = 0) := by
  refine ⟨?_, ?_, rfl, ?_⟩
  · by_cases h : view_inventory db = [] <;> simp [total_items, h]
  · by_cases h : view_inventory db = [] <;> simp [total_value, h]
  · intro h
    simp only [view_inventory] at h
    simp [total_items, total_value, low_stock_count, get_low_stock_items,
      view_inventory, h]

/-- Witness for C6 on the empty store. -/
theorem metrics_from_listing_witness :
    total_items (init_db none) = 0 ∧ total_value (init_db none) = 0 ∧
      low_stock_count (init_db none) = 0 :=
  (metrics_from_listing (init_db none)).2.2.2 rfl

end Inventory

namespace Inventory

lemma importRows_count (rs : List (String × Int × ℚ)) :
    ∀ db : DB, (importRows db rs).1 = (importResults db rs).count true := by
  induction rs with
  | nil => intro db; simp [importRows, importResults]
  | cons r rs ih =>
    intro db
    by_cases hb : (add_item db r.1 r.2.1 r.2.2).1 = true
    · simp [importRows, importResults, hb, ih, List.count_cons,
        Nat.add_comm]
    · simp only [Bool.not_eq_true] at hb
      simp [importRows, importResults, hb, ih, List.count_cons]

/-- Claim C3: a successful insert adds a row carrying exactly the given
name, quantity and price, whose id is the current sequence value and so
differs from the id of every existing row; the sequence never
decreases, update never changes any id, and delete never changes the
sequence, so ids are never reused or reassigned. -/
theorem add_item_fresh_id_round_trip (db : DB) (n : String) (q : Int)
    (p : ℚ) (hreach : Reachable db)
    (hsucc : (add_item db n q p).1 = true) :
    (∃ r ∈ view_inventory (add_item db n q p).2,
        r.name = n ∧ r.quantity = q ∧ r.price = p ∧ r.id = db.nextId ∧
          ∀ r2 ∈ db.rows, r.id ≠ r2.id) ∧
      db.nextId ≤ (add_item db n q p).2.nextId ∧
      (∀ (i : Nat) (q2 : Int) (p2 : ℚ),
        (update_item db i q2 p2).rows.map (fun r => r.id) =
          db.rows.map (fun r => r.id)) ∧
      (∀ i : Nat, (delete_item db i).nextId = db.nextId) := by
  have hdup : db.rows.any (fun r => r.name = n) = false := by
    by_contra hc
    simp only [Bool.not_eq_false] at hc
    simp [add_item, hc] at hsucc
  refine ⟨?_, ?_, ?_, ?_⟩
  · refine ⟨{ id := db.nextId, name := n, quantity := q, price := p },
      ?_, rfl, rfl, rfl, rfl, ?_⟩
    · simp [view_inventory, add_item, hdup]
    · intro r2 hr2
      have hlt := reachable_id_lt db hreach r2 hr2
      show db.nextId ≠ r2.id
      omega
  · simp [add_item, hdup]
  · intro i q2 p2
    exact update_item_map_id db i q2 p2
  · intro i
    rfl

/-- Witness for C3: inserting Bolt into the freshly initialized store. -/
theorem add_item_fresh_id_round_trip_witness :
    (∃ r ∈ view_inventory (add_item (init_db none) "Bolt" 10 (5/2)).2,
        r.name = "Bolt" ∧ r.quantity = 10 ∧ r.price = 5/2 ∧
          r.id = (init_db none).nextId ∧
          ∀ r2 ∈ (init_db none).rows, r.id ≠ r2.id) ∧
      (init_db none).nextId ≤
        (add_item (init_db none) "Bolt" 10 (5/2)).2.nextId ∧
      (∀ (i : Nat) (q2 : Int) (p2 : ℚ),
        (update_item (init_db none) i q2 p2).rows.map (fun r => r.id) =
          (init_db none).rows.map (fun r => r.id)) ∧
      (∀ i : Nat, (delete_item (init_db none) i).nextId =
        (init_db none).nextId) :=
  add_item_fresh_id_round_trip (init_db none) "Bolt" 10 (5/2)
    Reachable.init (by decide)

/-- Claim C7 counterexample: the store itself never checks signs, so a
state holding a negative quantity and price is reachable through the
persistence API. -/
theorem nonneg_invariant_counterexample :
    ¬ (∀ db : DB, Reachable db → ∀ r ∈ db.rows,
        0 ≤ r.quantity ∧ 0 ≤ r.price) := by
  intro h
  have hreach : Reachable (add_item (init_db none) "x" (-1) (-1)).2 :=
    Reachable.add (init_db none) "x" (-1) (-1) Reachable.init
  have hmem : ({ id := 1, name := "x", quantity := -1, price := -1 } :
      Item) ∈ (add_item (init_db none) "x" (-1) (-1)).2.rows := by decide
  have hq := (h _ hreach _ hmem).1
  simp at hq

/-- Claim C7 as amended: when every insert and update supplies a
non-negative quantity and price — which the presentation layer's input
widgets enforce — every row of every reachable state has a non-negative
quantity and price. -/
theorem nonneg_invariant_guarded (db : DB) (h : ReachableNN db) :
    ∀ r ∈ db.rows, 0 ≤ r.quantity ∧ 0 ≤ r.price := by
  induction h with
  | init => simp [init_db]
  | reinit db h ih => simpa [init_db] using ih
  | add db n q p hq hp h ih =>
    intro r hr
    by_cases hdup : db.rows.any (fun x => x.name = n)
    · simp only [add_item, hdup, if_pos] at hr
      exact ih r hr
    · simp only [add_item, hdup, Bool.false_eq_true, if_neg,
        not_false_iff, List.mem_append, List.mem_singleton] at hr
      rcases hr with hr | hr
      · exact ih r hr
      · subst hr
        exact ⟨hq, hp⟩
  | upd db i q p hq hp h ih =>
    intro r hr
    simp only [update_item] at hr
    rcases List.mem_map.mp hr with ⟨s, hs, hsr⟩
    subst hsr
    by_cases hid : s.id = i
    · simp only [hid, if_pos]
      exact ⟨hq, hp⟩
    · simpa [hid] using ih s hs
  | del db i h ih =>
    intro r hr
    exact ih r (List.mem_of_mem_filter hr)

/-- Witness for the amended C7 at a concrete guarded insert. -/
theorem nonneg_invariant_guarded_witness :
    0 ≤ ({ id := 1, name := "x", quantity := 2, price := 3 } :
        Item).quantity ∧
      0 ≤ ({ id := 1, name := "x", quantity := 2, price := 3 } :
        Item).price :=
  nonneg_invariant_guarded _
    (ReachableNN.add (init_db none) "x" 2 3 (by norm_num) (by norm_num)
      ReachableNN.init)
    { id := 1, name := "x", quantity := 2, price := 3 } (by decide)

/-- Claim C8: initialization is idempotent — run on an existing table
it returns that table with every row intact, and iterating it any
positive number of times after a first run changes nothing. -/
theorem init_db_idempotent (N : ℕ) (hN : 1 ≤ N) (db : DB)
    (start : Option DB) :
    init_db (some db) = db ∧ (init_db (some db)).rows = db.rows ∧
      (fun d => init_db (some d))^[N] (init_db start) = init_db start := by
  refine ⟨rfl, rfl, ?_⟩
  have hid : (fun d : DB => init_db (some d)) = id := rfl
  rw [hid, Function.iterate_id]
  rfl

/-- Witness for C8 with three repeated initializations. -/
theorem init_db_idempotent_witness :
    init_db (some widgetDB) = widgetDB ∧
      (init_db (some widgetDB)).rows = widgetDB.rows ∧
      (fun d => init_db (some d))^[3] (init_db (some widgetDB)) =
        init_db (some widgetDB) :=
  init_db_idempotent 3 (by norm_num) widgetDB (some widgetDB)

/-- Claim C9: the import block requires the Name, Quantity, Price
header, counts exactly the successful inserts, and on the three-row
example with a duplicate name A it reports 2 added rows and leaves
exactly one A row (quantity 5) and one B row (quantity 3). -/
theorem bulk_import_spec :
    hasImportColumns ["Name", "Quantity", "Price"] = true ∧
      (∀ (db : DB) (rs : List (String × Int × ℚ)),
        (importRows db rs).1 = (importResults db rs).count true) ∧
      (importRows (init_db none)
        [("A", 5, 1), ("B", 3, 2), ("A", 1, 1)]).1 = 2 ∧
      (importRows (init_db none)
        [("A", 5, 1), ("B", 3, 2), ("A", 1, 1)]).2.rows =
        [{ id := 1, name := "A", quantity := 5, price := 1 },
          { id := 2, name := "B", quantity := 3, price := 2 }] := by
  refine ⟨by decide, ?_, by decide, by decide⟩
  intro db rs
  exact importRows_count rs db

/-- Claim C10: the store-level insert applies no non-empty-name check:
on a table with no empty-named row it accepts the empty string,
returns True and stores a row whose name is empty. -/
theorem add_item_empty_name_accepted (db : DB) (q : Int) (p : ℚ)
    (h : ∀ r ∈ db.rows, r.name ≠ "") :
    (add_item db "" q p).1 = true ∧
      ∃ r ∈ (add_item db "" q p).2.rows,
        r.name = "" ∧ r.quantity = q ∧ r.price = p := by
  have hany : db.rows.any (fun r => r.name = "") = false := by
    rw [List.any_eq_false]
    intro r hr
    simpa using h r hr
  refine ⟨by simp [add_item, hany], ?_⟩
  refine ⟨{ id := db.nextId, name := "", quantity := q, price := p },
    ?_, rfl, rfl, rfl⟩
  simp [add_item, hany]

/-- Witness for C10 on the freshly initialized store. -/
theorem add_item_empty_name_accepted_witness :
    (add_item (init_db none) "" 4 7).1 = true ∧
      ∃ r ∈ (add_item (init_db none) "" 4 7).2.rows,
        r.name = "" ∧ r.quantity = 4 ∧ r.price = 7 :=
  add_item_empty_name_accepted (init_db none) 4 7 (by decide)

end Inventory
